import Mathlib

/-!
Verification of the fraud-scoring engine (`fraud_detector.py`) against its
specification.  The engine is embedded shallowly:

* A pandas DataFrame becomes a `Batch`: a list of `Row`s plus flags recording
  which optional columns are present.  A missing value inside a present column
  (pandas `NaN`) is an `Option` that is `none`.
* Real-number arithmetic of the source is embedded over `ℚ`.  The score fusion
  `(rule_scores * 0.6 + ml_scores * 0.4).astype(int)` is embedded as the exact
  rational floor: over the integer scores the rule evaluator can actually
  produce ({0,15,25,30,40,45,55,60,65,70,75,80,85,95,100}) paired with any
  anomaly score in [0,100], the double-precision computation of the source and
  the exact floor agree, so the rational embedding is faithful on reachable
  states.
* The isolation-forest model itself is external (scikit-learn); its raw
  outputs — `score_samples` (a list of continuous scores) and `fit_predict`
  (a list of ±1 labels) — enter the embedding as an oracle parameter.  The
  `try/except` around fitting is an `Except` value: `.error` is the branch
  where fitting raised.
* Post-processing of the model outputs (min–max normalisation with the 1e-6
  epsilon, masking by the outlier label, clip, int cast) is embedded exactly.
-/

namespace FraudDetection

/-- One transaction record (a row of the input DataFrame).  `amount` is the
required column; the optional columns hold `none` where the cell is missing
(pandas NaN). -/
structure Row where
  amount : ℚ
  beneficiary : Option String := none
  account : Option String := none
  scheme : Option String := none
  region : Option String := none
  duplicateFlag : Option Bool := none
deriving Repr, DecidableEq, Inhabited

/-- A batch of transactions: the rows plus flags recording which optional
columns exist in the DataFrame (`'col' in df.columns`). -/
structure Batch where
  rows : List Row
  hasBeneficiary : Bool := false
  hasTimestamp : Bool := false
  hasAccount : Bool := false
deriving Repr, DecidableEq

/-- The amounts column of a batch. -/
def amounts (df : Batch) : List ℚ := df.rows.map (·.amount)

/-- Linear interpolation into a list at fractional position `p`
(`numpy`/`pandas` linear quantile interpolation). -/
def interp (s : List ℚ) (p : ℚ) : ℚ :=
  let k : ℕ := ⌊p⌋.toNat
  let x0 := s.getD k 0
  let x1 := s.getD (k + 1) x0
  x0 + (p - (k : ℚ)) * (x1 - x0)

/-- `Series.quantile(q)` with the default linear interpolation: sort the
values and interpolate at position `q * (n - 1)`.  (A sorted list of
rationals is unique as a list of values, so the choice of sorting algorithm
is immaterial; insertion sort is used because it evaluates by kernel
reduction.) -/
def quantile (xs : List ℚ) (q : ℚ) : ℚ :=
  if xs.isEmpty then 0
  else interp (xs.insertionSort (· ≤ ·)) (q * ((xs.length : ℚ) - 1))

/-- `amount % 1000 == 0`: the amount is an exact (integer) multiple of 1000. -/
def isRound (a : ℚ) : Bool := a.den == 1 && a.num % 1000 == 0

/-- Rules 1 and 2 of `_apply_rules`: +30 above the batch 95th percentile of
`amount`, a further +40 above the 99th percentile. -/
def amountContrib (df : Batch) (a : ℚ) : ℤ :=
  (if quantile (amounts df) (19/20) < a then 30 else 0)
  + (if quantile (amounts df) (99/100) < a then 40 else 0)

/-- Rule 3 of `_apply_rules` (burst by beneficiary), for one row.  The source
guards on both the `beneficiary_id` and `timestamp` columns being present
(`hasBT` is their conjunction).  `df['beneficiary_id'].unique()` lists `NaN`
too, but `df['beneficiary_id'] == NaN` matches no row, so a row whose own
beneficiary cell is missing never receives the contribution; a row with
beneficiary `b` receives it exactly when `b`'s group has more than 2 rows. -/
def burstContrib (hasBT : Bool) (bens : List (Option String)) (b? : Option String) : ℤ :=
  if hasBT then
    match b? with
    | none => 0
    | some b =>
      let c := bens.count (some b)
      if 2 < c then min (20 * ((c : ℤ) - 1)) 30 else 0
  else 0

/-- Rule 4 of `_apply_rules` (high-frequency account), for one row.
`value_counts()` drops `NaN`, and `isin` never matches a missing cell, so a
row with a missing account cell gets 0. -/
def acctContrib (hasAcct : Bool) (accts : List (Option String)) (a? : Option String) : ℤ :=
  if hasAcct then
    match a? with
    | none => 0
    | some a => if 5 < accts.count (some a) then 25 else 0
  else 0

/-- Rule 5 of `_apply_rules`: +15 for a round (multiple-of-1000) amount. -/
def roundContrib (a : ℚ) : ℤ := if isRound a then 15 else 0

/-- The additive rule total for row `i`, before the final clip. -/
def rawRuleScore (df : Batch) (i : ℕ) : ℤ :=
  let row := df.rows.getD i default
  amountContrib df row.amount
    + burstContrib (df.hasBeneficiary && df.hasTimestamp)
        (df.rows.map (·.beneficiary)) row.beneficiary
    + acctContrib df.hasAccount (df.rows.map (·.account)) row.account
    + roundContrib row.amount

/-- `_apply_rules` output for row `i`: the additive total, `clip(0, 100)`. -/
def ruleScore (df : Batch) (i : ℕ) : ℤ := min (max (rawRuleScore df i) 0) 100

/-- Minimum of a list (`np.ndarray.min()` over a nonempty array). -/
def listMin (xs : List ℚ) : ℚ :=
  match xs with
  | [] => 0
  | x :: t => t.foldl min x

/-- Maximum of a list (`np.ndarray.max()` over a nonempty array). -/
def listMax (xs : List ℚ) : ℚ :=
  match xs with
  | [] => 0
  | x :: t => t.foldl max x

/-- Batch min–max normalisation of `_apply_ml_detection`:
`(s - min) / (max - min + 1e-6) * 100`. -/
def normalizedScore (scores : List ℚ) (s : ℚ) : ℚ :=
  (s - listMin scores) / (listMax scores - listMin scores + 1/1000000) * 100

/-- Per-row ML score of `_apply_ml_detection`: the normalised score masked by
the ±1 outlier label (`np.abs(normalized * (predictions == -1))`), then
`clip(0, 100).astype(int)` (truncation = floor on these nonnegative values). -/
def mlScoreRow (scores : List ℚ) (s : ℚ) (pred : ℤ) : ℤ :=
  let masked := |normalizedScore scores s * (if pred = -1 then 1 else 0)|
  ⌊min (max masked 0) 100⌋

/-- `_apply_ml_detection`.  The isolation-forest outputs enter as an oracle:
`.ok (scores, preds)` carries `score_samples` and `fit_predict` for the batch,
`.error` is the branch where the `try` block raised, which the bare `except`
turns into `pd.Series(0, index=df.index)`. -/
def applyMlDetection (df : Batch) (fit : Except String (List ℚ × List ℤ)) : List ℤ :=
  match fit with
  | .error _ => List.replicate df.rows.length 0
  | .ok (scores, preds) =>
    (List.range df.rows.length).map fun i =>
      mlScoreRow scores (scores.getD i 0) (preds.getD i 1)

/-- The identity of one reason string of `_explain_fraud` (the literal strings
are presentational; amounts interpolated into them add no information beyond
the row's own fields). -/
inductive Reason where
  | highAmount
  | duplicateClaim
  | nregaCeiling
  | pdsUnusual
  | mlAnomaly
  | roundAmount
  | lowAnomaly
deriving Repr, DecidableEq, Inhabited

/-- `_explain_fraud`: build the ordered reason list for one row.  `ruleSc` is
passed by the caller but unused in the body, exactly as in the source.
`mlSc` is the pre-fusion per-row ML score. -/
def explainFraud (row : Row) (ruleSc mlSc : ℤ) : List Reason :=
  let reasons : List Reason := []
  let reasons := if 100000 < row.amount then reasons ++ [Reason.highAmount] else reasons
  let reasons := if row.duplicateFlag = some true
    then reasons ++ [Reason.duplicateClaim] else reasons
  let reasons := if row.scheme = some "NREGA" ∧ 50000 < row.amount
    then reasons ++ [Reason.nregaCeiling] else reasons
  let reasons := if row.scheme = some "PDS" ∧ 10000 < row.amount
    then reasons ++ [Reason.pdsUnusual] else reasons
  let reasons := if 40 < mlSc then reasons ++ [Reason.mlAnomaly] else reasons
  let reasons := if isRound row.amount then reasons ++ [Reason.roundAmount] else reasons
  let _ := ruleSc
  if reasons.isEmpty then [Reason.lowAnomaly] else reasons

/-- Risk tier label of `detect_fraud` (the emoji prefixes of the source
strings are presentational). -/
inductive RiskLevel where
  | Low
  | Medium
  | High
deriving Repr, DecidableEq, Inhabited

/-- The risk-level lambda of `detect_fraud`: `Low` below 50, `Medium` below
75, `High` otherwise. -/
def riskLevel (x : ℤ) : RiskLevel :=
  if x < 50 then RiskLevel.Low else if x < 75 then RiskLevel.Medium else RiskLevel.High

/-- Score fusion of `detect_fraud`:
`(rule * 0.6 + ml * 0.4).astype(int)`, embedded as the exact floor (see the
header note on reachable-state faithfulness; both components are nonnegative,
so truncation equals floor). -/
def fuse (r m : ℤ) : ℤ := ⌊(r : ℚ) * (6/10) + (m : ℚ) * (4/10)⌋

/-- One row of the scored output: the original row's fields plus the three
columns `detect_fraud` assigns on the copy. -/
structure ScoredRow where
  base : Row
  risk_score : ℤ
  risk_level : RiskLevel
  fraud_indicators : List Reason
deriving Repr, DecidableEq, Inhabited

/-- `detect_fraud`, with the caller's DataFrame threaded as explicit state:
the result pairs the caller's batch as it stands after the call with the
scored output.  The source copies the input (`results = df.copy()`) and
every subsequent column assignment targets the copy, so the first component
is the argument unchanged. -/
def detectFraudCall (df : Batch) (fit : Except String (List ℚ × List ℤ)) :
    Batch × List ScoredRow :=
  let results := df
  let mlScores := applyMlDetection results fit
  let scored := (List.range results.rows.length).map fun i =>
    let row := results.rows.getD i default
    let r := ruleScore results i
    let m := mlScores.getD i 0
    let score := fuse r m
    { base := row
      risk_score := score
      risk_level := riskLevel score
      fraud_indicators := explainFraud row r m }
  (df, scored)

/-- The scored output of `detect_fraud`. -/
def detectFraud (df : Batch) (fit : Except String (List ℚ × List ℤ)) : List ScoredRow :=
  (detectFraudCall df fit).2

/-- One record of `detect_duplicates` (its `Total Amount` field is the
f-string rendering of the sum, kept here as the sum itself). -/
structure DupAlert where
  beneficiaryId : String
  transactionCount : ℕ
  highRiskTxns : ℕ
  totalAmount : ℚ
  tag : String
deriving Repr, DecidableEq

/-- The body of the `detect_duplicates` loop for one beneficiary value `b`:
its group of rows (`df['beneficiary_id'] == beneficiary`), the `count > 1`
guard from `value_counts`'s filtered items and the `high_risk_count > 0`
guard, then the alert record. -/
def dupAlertFor (rows : List ScoredRow) (b : String) : Option DupAlert :=
  let txns := rows.filter (fun t => t.base.beneficiary == some b)
  if 1 < txns.length then
    let highRisk := (txns.filter (fun t => 50 ≤ t.risk_score)).length
    if 0 < highRisk then
      some { beneficiaryId := b
             transactionCount := txns.length
             highRiskTxns := highRisk
             totalAmount := (txns.map (·.base.amount)).sum
             tag := "Potential Identity Fraud" }
    else none
  else none

/-- `detect_duplicates` on a scored batch.  `hasBeneficiary` is
`'beneficiary_id' in df.columns`.  `value_counts()` drops missing cells and
lists each present value once.  (`value_counts` orders values by frequency;
the emitted collection is specified as unordered, and this embedding lists
qualifying beneficiaries in first-appearance order.) -/
def detectDuplicates (hasBeneficiary : Bool) (rows : List ScoredRow) : List DupAlert :=
  if hasBeneficiary then
    ((rows.filterMap (·.base.beneficiary)).dedup).filterMap (dupAlertFor rows)
  else []

/-! ### Access and bound lemmas -/

lemma length_detectFraud (df : Batch) (fit : Except String (List ℚ × List ℤ)) :
    (detectFraud df fit).length = df.rows.length := by
  simp [detectFraud, detectFraudCall]

lemma detectFraud_getD (df : Batch) (fit : Except String (List ℚ × List ℤ)) (i : ℕ)
    (hi : i < df.rows.length) :
    (detectFraud df fit).getD i default =
      { base := df.rows.getD i default
        risk_score := fuse (ruleScore df i) ((applyMlDetection df fit).getD i 0)
        risk_level := riskLevel (fuse (ruleScore df i) ((applyMlDetection df fit).getD i 0))
        fraud_indicators := explainFraud (df.rows.getD i default) (ruleScore df i)
          ((applyMlDetection df fit).getD i 0) } := by
  simp [detectFraud, detectFraudCall, List.getElem?_map, List.getElem?_range, hi]

lemma mem_detectFraud (df : Batch) (fit : Except String (List ℚ × List ℤ)) (sr : ScoredRow)
    (h : sr ∈ detectFraud df fit) :
    ∃ i < df.rows.length, sr = (detectFraud df fit).getD i default := by
  simp only [detectFraud, detectFraudCall, List.mem_map, List.mem_range] at h
  obtain ⟨i, hi, hsr⟩ := h
  exact ⟨i, hi, by rw [detectFraud_getD df fit i hi, ← hsr]⟩

lemma amountContrib_nonneg (df : Batch) (a : ℚ) : 0 ≤ amountContrib df a := by
  unfold amountContrib
  split <;> split <;> norm_num

lemma burstContrib_nonneg (hasBT : Bool) (bens : List (Option String)) (b? : Option String) :
    0 ≤ burstContrib hasBT bens b? := by
  unfold burstContrib
  split
  · match b? with
    | none => simp
    | some b =>
      simp only
      split
      · have h2 : (2 : ℤ) < (bens.count (some b) : ℤ) := by exact_mod_cast ‹_›
        refine le_min (by omega) (by norm_num)
      · exact le_refl 0
  · exact le_refl 0

lemma acctContrib_nonneg (hasAcct : Bool) (accts : List (Option String)) (a? : Option String) :
    0 ≤ acctContrib hasAcct accts a? := by
  unfold acctContrib
  split
  · match a? with
    | none => simp
    | some a => simp only; split <;> norm_num
  · exact le_refl 0

lemma roundContrib_nonneg (a : ℚ) : 0 ≤ roundContrib a := by
  unfold roundContrib
  split <;> norm_num

lemma rawRuleScore_nonneg (df : Batch) (i : ℕ) : 0 ≤ rawRuleScore df i := by
  simp only [rawRuleScore]
  have h1 := amountContrib_nonneg df (df.rows.getD i default).amount
  have h2 := burstContrib_nonneg (df.hasBeneficiary && df.hasTimestamp)
    (df.rows.map (·.beneficiary)) (df.rows.getD i default).beneficiary
  have h3 := acctContrib_nonneg df.hasAccount (df.rows.map (·.account))
    (df.rows.getD i default).account
  have h4 := roundContrib_nonneg (df.rows.getD i default).amount
  omega

lemma ruleScore_nonneg (df : Batch) (i : ℕ) : 0 ≤ ruleScore df i := by
  have := rawRuleScore_nonneg df i
  unfold ruleScore
  omega

lemma ruleScore_le (df : Batch) (i : ℕ) : ruleScore df i ≤ 100 := by
  unfold ruleScore
  omega

lemma mlScoreRow_nonneg (scores : List ℚ) (s : ℚ) (p : ℤ) : 0 ≤ mlScoreRow scores s p := by
  unfold mlScoreRow
  have h : (0 : ℚ) ≤ min (max (|normalizedScore scores s * (if p = -1 then 1 else 0)|) 0) 100 :=
    le_min (le_max_right _ _) (by norm_num)
  exact Int.le_floor.mpr (by exact_mod_cast h)

lemma mlScoreRow_le (scores : List ℚ) (s : ℚ) (p : ℤ) : mlScoreRow scores s p ≤ 100 := by
  unfold mlScoreRow
  have h : min (max (|normalizedScore scores s * (if p = -1 then 1 else 0)|) 0) 100 ≤ (100 : ℚ) :=
    min_le_right _ _
  calc ⌊min (max (|normalizedScore scores s * (if p = -1 then 1 else 0)|) 0) 100⌋
      ≤ ⌊(100 : ℚ)⌋ := Int.floor_le_floor h
    _ = 100 := by norm_num

lemma applyMl_getD_nonneg (df : Batch) (fit : Except String (List ℚ × List ℤ)) (i : ℕ) :
    0 ≤ (applyMlDetection df fit).getD i 0 := by
  unfold applyMlDetection
  match fit with
  | .error e => simp [List.getD_eq_getElem?_getD, List.getElem?_replicate]; split <;> simp
  | .ok (scores, preds) =>
    simp only [List.getD_eq_getElem?_getD, List.getElem?_map, List.getElem?_range]
    by_cases hi : i < df.rows.length
    · simp [hi, mlScoreRow_nonneg]
    · have hn : (List.range df.rows.length)[i]? = none :=
        List.getElem?_eq_none (by simpa using Nat.le_of_not_lt hi)
      simp [hn]

lemma applyMl_getD_le (df : Batch) (fit : Except String (List ℚ × List ℤ)) (i : ℕ) :
    (applyMlDetection df fit).getD i 0 ≤ 100 := by
  unfold applyMlDetection
  match fit with
  | .error e => simp [List.getD_eq_getElem?_getD, List.getElem?_replicate]; split <;> simp
  | .ok (scores, preds) =>
    simp only [List.getD_eq_getElem?_getD, List.getElem?_map, List.getElem?_range]
    by_cases hi : i < df.rows.length
    · simp [hi, mlScoreRow_le]
    · have hn : (List.range df.rows.length)[i]? = none :=
        List.getElem?_eq_none (by simpa using Nat.le_of_not_lt hi)
      simp [hn]

lemma fuse_nonneg (r m : ℤ) (hr : 0 ≤ r) (hm : 0 ≤ m) : 0 ≤ fuse r m := by
  unfold fuse
  apply Int.le_floor.mpr
  have hr' : (0 : ℚ) ≤ (r : ℚ) := by exact_mod_cast hr
  have hm' : (0 : ℚ) ≤ (m : ℚ) := by exact_mod_cast hm
  push_cast
  nlinarith

lemma fuse_le (r m : ℤ) (hr : r ≤ 100) (hm : m ≤ 100) : fuse r m ≤ 100 := by
  unfold fuse
  have hr' : (r : ℚ) ≤ 100 := by exact_mod_cast hr
  have hm' : (m : ℚ) ≤ 100 := by exact_mod_cast hm
  calc ⌊(r : ℚ) * (6/10) + (m : ℚ) * (4/10)⌋ ≤ ⌊(100 : ℚ)⌋ :=
        Int.floor_le_floor (by nlinarith)
    _ = 100 := by norm_num

lemma range_map_getD {α : Type} (l : List α) (d : α) :
    (List.range l.length).map (fun i => l.getD i d) = l := by
  apply List.ext_getElem
  · simp
  · intro i h1 h2
    simp [List.getD_eq_getElem?_getD, List.getElem?_eq_getElem, h2]

/-! ### Witness fixtures -/

/-- A minimal one-row batch (amount 7: not round, no optional columns). -/
def dfW : Batch := { rows := [{ amount := 7 }] }

/-- The scored output row of `dfW` under a failed fit. -/
def srW : ScoredRow :=
  { base := { amount := 7 }, risk_score := 0, risk_level := RiskLevel.Low,
    fraud_indicators := [Reason.lowAnomaly] }

lemma detectFraud_dfW : detectFraud dfW (Except.error "x") = [srW] := by
  norm_num [detectFraud, detectFraudCall, applyMlDetection, ruleScore, rawRuleScore,
    amountContrib, burstContrib, acctContrib, roundContrib, isRound, quantile, amounts,
    dfW, srW, interp, explainFraud, fuse, riskLevel, List.insertionSort, List.orderedInsert,
    List.range_succ]
  intro h
  simp at h

/-- A two-row batch with oracle model outputs: row 0 outlier, row 1 inlier. -/
def dfW2 : Batch := { rows := [{ amount := 7 }, { amount := 8 }] }

/-- Oracle continuous scores for `dfW2`. -/
def sc2 : List ℚ := [3, 5]

/-- Oracle binary labels for `dfW2`. -/
def pr2 : List ℤ := [-1, 1]

/-! ### Claim theorems -/

/-- C1: for every batch (the required `amount` field is part of the `Row`
type), every row of the scored output has an integer `risk_score` in
[0, 100], and its `risk_level` is the pure threshold function of
`risk_score`: Low below 50, Medium in [50, 75), High at 75 and above. -/
theorem C1_risk_score_bounds_and_level (df : Batch) (fit : Except String (List ℚ × List ℤ))
    (sr : ScoredRow) (h : sr ∈ detectFraud df fit) :
    0 ≤ sr.risk_score ∧ sr.risk_score ≤ 100 ∧
      sr.risk_level = (if sr.risk_score < 50 then RiskLevel.Low
        else if sr.risk_score < 75 then RiskLevel.Medium else RiskLevel.High) := by
  obtain ⟨i, hi, hsr⟩ := mem_detectFraud df fit sr h
  rw [hsr, detectFraud_getD df fit i hi]
  refine ⟨?_, ?_, rfl⟩
  · exact fuse_nonneg _ _ (ruleScore_nonneg df i) (applyMl_getD_nonneg df fit i)
  · exact fuse_le _ _ (ruleScore_le df i) (applyMl_getD_le df fit i)

/-- C1 witness: the single-row batch `dfW`, scored with a failed fit, has its
one output row within bounds and consistently labelled. -/
theorem C1_witness :
    0 ≤ (srW : ScoredRow).risk_score ∧ srW.risk_score ≤ 100 ∧
      srW.risk_level = (if srW.risk_score < 50 then RiskLevel.Low
        else if srW.risk_score < 75 then RiskLevel.Medium else RiskLevel.High) :=
  C1_risk_score_bounds_and_level dfW (Except.error "x") srW
    (by rw [detectFraud_dfW]; exact List.mem_singleton.mpr rfl)

/-- C2: the final `risk_score` of row `i` equals
`floor(rule_score * 0.6 + anomaly_score * 0.4)` clamped into [0, 100], where
`rule_score` is the `_apply_rules` output and `anomaly_score` the
`_apply_ml_detection` output for that row.  (The source omits an explicit
clamp after fusion; the clamp is the identity here because both components
are in [0, 100].) -/
theorem C2_fusion_formula (df : Batch) (fit : Except String (List ℚ × List ℤ)) (i : ℕ)
    (hi : i < df.rows.length) :
    ((detectFraud df fit).getD i default).risk_score
      = max 0 (min 100 ⌊(ruleScore df i : ℚ) * (6/10)
          + ((applyMlDetection df fit).getD i 0 : ℚ) * (4/10)⌋) := by
  rw [detectFraud_getD df fit i hi]
  have h0 : 0 ≤ fuse (ruleScore df i) ((applyMlDetection df fit).getD i 0) :=
    fuse_nonneg _ _ (ruleScore_nonneg df i) (applyMl_getD_nonneg df fit i)
  have h1 : fuse (ruleScore df i) ((applyMlDetection df fit).getD i 0) ≤ 100 :=
    fuse_le _ _ (ruleScore_le df i) (applyMl_getD_le df fit i)
  simp only [fuse] at h0 h1 ⊢
  omega

/-- C2 witness: the fusion formula evaluated on the single-row batch. -/
theorem C2_witness :
    ((detectFraud dfW (Except.error "x")).getD 0 default).risk_score
      = max 0 (min 100 ⌊(ruleScore dfW 0 : ℚ) * (6/10)
          + ((applyMlDetection dfW (Except.error "x")).getD 0 0 : ℚ) * (4/10)⌋) :=
  C2_fusion_formula dfW (Except.error "x") 0 (by simp [dfW])

/-- C3: with a fitted model (`Except.ok`), a row whose binary label is not
the outlier label −1 gets ML score exactly 0; a row labelled −1 gets the
floor of the clipped absolute batch min–max normalised score; and any row
with a nonzero ML score is necessarily labelled −1. -/
theorem C3_inlier_mask (df : Batch) (scores : List ℚ) (preds : List ℤ) (i : ℕ)
    (hi : i < df.rows.length) :
    (preds.getD i 1 ≠ -1 →
        (applyMlDetection df (Except.ok (scores, preds))).getD i 0 = 0) ∧
    (preds.getD i 1 = -1 →
        (applyMlDetection df (Except.ok (scores, preds))).getD i 0
          = ⌊min (max |normalizedScore scores (scores.getD i 0)| 0) 100⌋) ∧
    ((applyMlDetection df (Except.ok (scores, preds))).getD i 0 ≠ 0 →
        preds.getD i 1 = -1) := by
  have hv : (applyMlDetection df (Except.ok (scores, preds))).getD i 0
      = mlScoreRow scores (scores.getD i 0) (preds.getD i 1) := by
    simp [applyMlDetection, List.getD_eq_getElem?_getD, List.getElem?_map,
      List.getElem?_range, hi]
  rw [hv]
  unfold mlScoreRow
  by_cases hp : preds.getD i 1 = -1
  · refine ⟨fun h => absurd hp h, fun _ => ?_, fun _ => hp⟩
    rw [if_pos hp, mul_one]
  · refine ⟨fun _ => ?_, fun h => absurd h hp, fun hnz => ?_⟩
    · rw [if_neg hp, mul_zero, abs_zero]
      norm_num
    · exact absurd (by rw [if_neg hp, mul_zero, abs_zero]; norm_num) hnz

/-- C3 witness: a two-row batch, row 0 labelled outlier, row 1 inlier. -/
theorem C3_witness :
    ((-1 : ℤ) ≠ -1 → (applyMlDetection dfW2 (Except.ok (sc2, pr2))).getD 0 0 = 0) ∧
    ((-1 : ℤ) = -1 →
        (applyMlDetection dfW2 (Except.ok (sc2, pr2))).getD 0 0
          = ⌊min (max |normalizedScore sc2 (sc2.getD 0 0)| 0) 100⌋) ∧
    ((applyMlDetection dfW2 (Except.ok (sc2, pr2))).getD 0 0 ≠ 0 → (-1 : ℤ) = -1) := by
  have h := C3_inlier_mask dfW2 sc2 pr2 0 (by simp [dfW2])
  simpa [pr2] using h

/-- C7: when model fitting fails (any raised error), every row's anomaly
score is 0 and the scoring call still completes, each row's risk score
reducing to the floor of 0.6 times its rule score; the error is absorbed by
the bare `except`, never propagated (the embedding of `detect_fraud` is a
total function of the `.error` value). -/
theorem C7_fit_failure_fallback (df : Batch) (e : String) :
    applyMlDetection df (Except.error e) = List.replicate df.rows.length 0 ∧
    ∀ i, i < df.rows.length →
      ((detectFraud df (Except.error e)).getD i default).risk_score
        = ⌊(ruleScore df i : ℚ) * (6/10)⌋ := by
  refine ⟨rfl, fun i hi => ?_⟩
  rw [detectFraud_getD df (Except.error e) i hi]
  have hm : (applyMlDetection df (Except.error e)).getD i 0 = 0 := by
    simp [applyMlDetection, List.getD_eq_getElem?_getD, List.getElem?_replicate, hi]
  simp only [hm, fuse]
  norm_num

/-- C7 witness: the fallback on the single-row batch. -/
theorem C7_witness :
    (applyMlDetection dfW (Except.error "boom") = List.replicate dfW.rows.length 0) ∧
    ((detectFraud dfW (Except.error "boom")).getD 0 default).risk_score
      = ⌊(ruleScore dfW 0 : ℚ) * (6/10)⌋ := by
  obtain ⟨h1, h2⟩ := C7_fit_failure_fallback dfW "boom"
  exact ⟨h1, h2 0 (by simp [dfW])⟩

/-- C9: a scoring call returns a fresh annotated structure and leaves the
caller's batch unchanged — the state-passing embedding returns the caller's
batch exactly as supplied (the source copies before annotating), and every
field of every row of the input reappears unchanged as the `base` of the
corresponding output row, in order. -/
theorem C9_no_mutation (df : Batch) (fit : Except String (List ℚ × List ℤ)) :
    (detectFraudCall df fit).1 = df ∧
      ((detectFraudCall df fit).2).map (·.base) = df.rows := by
  refine ⟨rfl, ?_⟩
  have : ((detectFraudCall df fit).2).map (·.base)
      = (List.range df.rows.length).map (fun i => df.rows.getD i default) := by
    simp [detectFraudCall, List.map_map]
  rw [this, range_map_getD]

/-- C6: the reason list of a row is non-empty, and equals the fixed-order
concatenation of the six conditional reasons — high absolute amount,
external duplicate flag, the two scheme ceilings (NREGA then PDS), the
pre-fusion ML score above 40, round amount — with the single default
low-anomaly reason exactly when no condition holds. -/
theorem C6_reason_list (row : Row) (r m : ℤ) :
    explainFraud row r m ≠ [] ∧
    explainFraud row r m =
      (let l := (if 100000 < row.amount then [Reason.highAmount] else [])
        ++ (if row.duplicateFlag = some true then [Reason.duplicateClaim] else [])
        ++ (if row.scheme = some "NREGA" ∧ 50000 < row.amount then [Reason.nregaCeiling] else [])
        ++ (if row.scheme = some "PDS" ∧ 10000 < row.amount then [Reason.pdsUnusual] else [])
        ++ (if 40 < m then [Reason.mlAnomaly] else [])
        ++ (if isRound row.amount then [Reason.roundAmount] else []);
      if l.isEmpty then [Reason.lowAnomaly] else l) := by
  by_cases h1 : 100000 < row.amount <;>
    by_cases h2 : row.duplicateFlag = some true <;>
    by_cases h3 : row.scheme = some "NREGA" ∧ 50000 < row.amount <;>
    by_cases h4 : row.scheme = some "PDS" ∧ 10000 < row.amount <;>
    by_cases h5 : 40 < m <;>
    by_cases h6 : isRound row.amount <;>
    exact ⟨by simp [explainFraud, h1, h2, h3, h4, h5, h6],
      by simp [explainFraud, h1, h2, h3, h4, h5, h6]⟩

/-- The batch refuting C4 as stated: the beneficiary column is present, the
timestamp column is not, and beneficiary B has 3 transactions. -/
def dfC4 : Batch :=
  { rows := [{ amount := 7, beneficiary := some "B" },
             { amount := 7, beneficiary := some "B" },
             { amount := 7, beneficiary := some "B" }]
    hasBeneficiary := true }

/-- Like `dfC4` but with the timestamp column also present. -/
def dfC4T : Batch :=
  { rows := [{ amount := 7, beneficiary := some "B" },
             { amount := 7, beneficiary := some "B" },
             { amount := 7, beneficiary := some "B" }]
    hasBeneficiary := true, hasTimestamp := true }

/-- C4 counterexample: in `dfC4` the beneficiary column is present and
beneficiary B has 3 > 2 transactions, so the claim as stated awards each of
them min(20 × (3 − 1), 30) = 30 — but the source's rule 3 also requires the
timestamp column, so the burst contribution and the whole rule score of row
0 are 0. -/
theorem C4_counterexample :
    dfC4.hasBeneficiary = true ∧
    (dfC4.rows.map (·.beneficiary)).count (some "B") = 3 ∧
    (dfC4.rows.getD 0 default).beneficiary = some "B" ∧
    min (20 * ((3 : ℤ) - 1)) 30 = 30 ∧
    burstContrib (dfC4.hasBeneficiary && dfC4.hasTimestamp) (dfC4.rows.map (·.beneficiary))
        ((dfC4.rows.getD 0 default).beneficiary) = 0 ∧
    ruleScore dfC4 0 = 0 := by
  refine ⟨rfl, by decide, rfl, by decide, rfl, ?_⟩
  norm_num [ruleScore, rawRuleScore, amountContrib, burstContrib, acctContrib, roundContrib,
    isRound, quantile, amounts, dfC4, interp, List.insertionSort, List.orderedInsert]

/-- C4 amended: when the beneficiary **and timestamp** columns are both
present, a row whose beneficiary has more than 2 transactions in the batch
gains min(20 × (count − 1), 30) in its rule score; when either column is
absent the burst rule contributes 0, and likewise an absent account column
makes the account rule contribute 0. -/
theorem C4_burst_rule_amended (df : Batch) (i : ℕ) (b : String)
    (hb : (df.rows.getD i default).beneficiary = some b) :
    (df.hasBeneficiary = true → df.hasTimestamp = true →
      2 < (df.rows.map (·.beneficiary)).count (some b) →
      burstContrib (df.hasBeneficiary && df.hasTimestamp) (df.rows.map (·.beneficiary))
          ((df.rows.getD i default).beneficiary)
        = min (20 * (((df.rows.map (·.beneficiary)).count (some b) : ℤ) - 1)) 30) ∧
    ((df.hasBeneficiary && df.hasTimestamp) = false →
      burstContrib (df.hasBeneficiary && df.hasTimestamp) (df.rows.map (·.beneficiary))
          ((df.rows.getD i default).beneficiary) = 0) ∧
    (df.hasAccount = false →
      acctContrib df.hasAccount (df.rows.map (·.account))
          ((df.rows.getD i default).account) = 0) := by
  refine ⟨fun hB hT hc => ?_, fun hf => ?_, fun hf => ?_⟩
  · rw [hb]
    simp only [burstContrib, hB, hT, Bool.and_self, if_true]
    rw [if_pos hc]
  · rw [hb]
    simp only [burstContrib, hf, Bool.false_eq_true, if_false]
  · simp only [acctContrib, hf, Bool.false_eq_true, if_false]

/-- C4 witness: a batch with beneficiary and timestamp columns and a
three-transaction beneficiary gets the +30 burst contribution, while its
absent account column contributes 0. -/
theorem C4_witness :
    burstContrib (dfC4T.hasBeneficiary && dfC4T.hasTimestamp) (dfC4T.rows.map (·.beneficiary))
        ((dfC4T.rows.getD 0 default).beneficiary)
      = min (20 * (((dfC4T.rows.map (·.beneficiary)).count (some "B") : ℤ) - 1)) 30 ∧
    acctContrib dfC4T.hasAccount (dfC4T.rows.map (·.account))
        ((dfC4T.rows.getD 0 default).account) = 0 := by
  obtain ⟨h1, _, h3⟩ := C4_burst_rule_amended dfC4T 0 "B" rfl
  exact ⟨h1 rfl rfl (by decide), h3 rfl⟩

/-- C10: a row whose own beneficiary cell is missing receives no burst
contribution (whatever the column flags and however many such rows exist),
and every duplicate alert's beneficiary is a value actually present in some
row — the missing value can never name an alert. -/
theorem C10_missing_beneficiary (df : Batch) (i : ℕ)
    (hnone : (df.rows.getD i default).beneficiary = none)
    (rows : List ScoredRow) (hasB : Bool) :
    burstContrib (df.hasBeneficiary && df.hasTimestamp) (df.rows.map (·.beneficiary))
        ((df.rows.getD i default).beneficiary) = 0 ∧
    ∀ a ∈ detectDuplicates hasB rows, ∃ t ∈ rows, t.base.beneficiary = some a.beneficiaryId := by
  constructor
  · rw [hnone]
    unfold burstContrib
    split <;> rfl
  · intro a ha
    unfold detectDuplicates at ha
    split at ha
    · obtain ⟨x, hx, hfa⟩ := List.mem_filterMap.mp ha
      have hxid : a.beneficiaryId = x := by
        unfold dupAlertFor at hfa
        simp only at hfa
        split at hfa
        · split at hfa
          · cases hfa
            rfl
          · cases hfa
        · cases hfa
      obtain ⟨t, ht, hb⟩ := List.mem_filterMap.mp (List.mem_dedup.mp hx)
      exact ⟨t, ht, by rw [hxid, hb]⟩
    · cases ha

/-! ### Duplicate-alert lemmas -/

/-- The row group of one beneficiary value in a scored batch. -/
def benTxns (rows : List ScoredRow) (b : String) : List ScoredRow :=
  rows.filter (fun t => t.base.beneficiary == some b)

lemma dupAlertFor_eq_some (rows : List ScoredRow) (x : String) (a : DupAlert)
    (h : dupAlertFor rows x = some a) :
    a = { beneficiaryId := x
          transactionCount := (benTxns rows x).length
          highRiskTxns := ((benTxns rows x).filter (fun t => 50 ≤ t.risk_score)).length
          totalAmount := ((benTxns rows x).map (·.base.amount)).sum
          tag := "Potential Identity Fraud" } := by
  unfold dupAlertFor at h
  simp only at h
  split at h
  · split at h
    · cases h
      rfl
    · cases h
  · cases h

lemma dupAlertFor_isSome_iff (rows : List ScoredRow) (x : String) :
    (dupAlertFor rows x).isSome = true ↔
      1 < (benTxns rows x).length ∧
        0 < ((benTxns rows x).filter (fun t => 50 ≤ t.risk_score)).length := by
  unfold dupAlertFor benTxns
  simp only
  split
  · split
    · simp_all
    · simp_all
  · simp_all

lemma countP_and_beq (l : List String) (hnd : l.Nodup) (p : String → Bool) (b : String) :
    l.countP (fun x => p x && (x == b)) = if b ∈ l ∧ p b = true then 1 else 0 := by
  induction l with
  | nil => simp
  | cons x t ih =>
    rcases List.nodup_cons.mp hnd with ⟨hx, ht⟩
    rw [List.countP_cons, ih ht]
    by_cases hxb : x = b
    · subst hxb
      simp [hx]
    · have hbx : ¬ b = x := fun h => hxb h.symm
      simp [hxb, hbx, List.mem_cons]

lemma mem_bens_of_txns_pos (rows : List ScoredRow) (b : String)
    (h : 0 < (benTxns rows b).length) :
    b ∈ (rows.filterMap (·.base.beneficiary)).dedup := by
  rw [List.mem_dedup, List.mem_filterMap]
  obtain ⟨t, ht⟩ := List.exists_mem_of_length_pos h
  have hmem := List.mem_of_mem_filter ht
  have hpred := List.of_mem_filter ht
  exact ⟨t, hmem, by simpa using hpred⟩

/-- C5: with the beneficiary column absent the duplicate call returns the
empty list; with it present, each beneficiary value receives exactly one
alert precisely when it has more than one transaction and at least one with
`risk_score ≥ 50`, and every emitted alert carries that beneficiary's total
transaction count, its count of rows at `risk_score ≥ 50`, and the sum of
its amounts. -/
theorem C5_duplicate_detection (hasB : Bool) (rows : List ScoredRow) (b : String) :
    (hasB = false → detectDuplicates hasB rows = []) ∧
    ((detectDuplicates hasB rows).countP (fun a => a.beneficiaryId == b)
      = if hasB = true ∧ 1 < (benTxns rows b).length ∧
            0 < ((benTxns rows b).filter (fun t => 50 ≤ t.risk_score)).length
        then 1 else 0) ∧
    (∀ a ∈ detectDuplicates hasB rows,
        a.transactionCount = (benTxns rows a.beneficiaryId).length ∧
        a.highRiskTxns
          = ((benTxns rows a.beneficiaryId).filter (fun t => 50 ≤ t.risk_score)).length ∧
        a.totalAmount = ((benTxns rows a.beneficiaryId).map (·.base.amount)).sum) := by
  refine ⟨fun hf => by simp [detectDuplicates, hf], ?_, ?_⟩
  · cases hasB with
    | false => simp [detectDuplicates]
    | true =>
      unfold detectDuplicates
      rw [if_pos rfl, List.countP_filterMap]
      have hq : ∀ x, ((dupAlertFor rows x).map (fun a => a.beneficiaryId == b)).getD false
          = ((decide (1 < (benTxns rows x).length ∧
              0 < ((benTxns rows x).filter (fun t => 50 ≤ t.risk_score)).length)) && (x == b)) := by
        intro x
        rcases hda : dupAlertFor rows x with _ | a
        · have hns : ¬ (1 < (benTxns rows x).length ∧
              0 < ((benTxns rows x).filter (fun t => 50 ≤ t.risk_score)).length) := by
            rw [← dupAlertFor_isSome_iff rows x, hda]
            simp
          simp [hns]
        · have hc := (dupAlertFor_isSome_iff rows x).mp (by rw [hda]; rfl)
          have hid : a.beneficiaryId = x := by rw [dupAlertFor_eq_some rows x a hda]
          simp [hid, hc]
      rw [List.countP_congr (fun x _ => by rw [hq x])]
      rw [countP_and_beq _ (List.nodup_dedup _) _ b]
      by_cases hcond : 1 < (benTxns rows b).length ∧
          0 < ((benTxns rows b).filter (fun t => 50 ≤ t.risk_score)).length
      · have hmem : b ∈ (rows.filterMap (·.base.beneficiary)).dedup :=
          mem_bens_of_txns_pos rows b (by omega)
        simp [hmem, hcond]
      · simp [hcond]
  · intro a ha
    unfold detectDuplicates at ha
    split at ha
    · obtain ⟨x, _, hfa⟩ := List.mem_filterMap.mp ha
      have := dupAlertFor_eq_some rows x a hfa
      rw [this]
      exact ⟨rfl, rfl, rfl⟩
    · cases ha

/-! ### Quantile monotonicity -/

lemma getD_default_irrel (l : List ℚ) (i : ℕ) (d d' : ℚ) (h : i < l.length) :
    l.getD i d = l.getD i d' := by
  rw [List.getD_eq_getElem?_getD, List.getElem?_eq_getElem h,
    List.getD_eq_getElem?_getD, List.getElem?_eq_getElem h]
  rfl

lemma getD_mono_of_sorted (s : List ℚ) (hs : List.Sorted (· ≤ ·) s) (i j : ℕ)
    (hij : i ≤ j) (hj : j < s.length) : s.getD i 0 ≤ s.getD j 0 := by
  have hi : i < s.length := lt_of_le_of_lt hij hj
  rw [List.getD_eq_getElem?_getD, List.getElem?_eq_getElem hi,
    List.getD_eq_getElem?_getD, List.getElem?_eq_getElem hj]
  simp only [Option.getD_some]
  rcases eq_or_lt_of_le hij with rfl | hlt
  · exact le_refl _
  · exact List.pairwise_iff_getElem.mp hs i j hi hj hlt

lemma interp_mono (s : List ℚ) (hs : List.Sorted (· ≤ ·) s) (p p' : ℚ)
    (hp0 : 0 ≤ p) (hpp : p ≤ p') (hp' : p' ≤ (s.length : ℚ) - 1) :
    interp s p ≤ interp s p' := by
  have hp'0 : 0 ≤ p' := le_trans hp0 hpp
  have hn : 1 ≤ s.length := by
    by_contra h
    have h0 : s.length = 0 := by omega
    rw [h0] at hp'
    norm_num at hp'
    linarith
  have htn : ((⌊p⌋.toNat : ℕ) : ℚ) = ((⌊p⌋ : ℤ) : ℚ) := by
    exact_mod_cast Int.toNat_of_nonneg (Int.floor_nonneg.mpr hp0)
  have htn' : ((⌊p'⌋.toNat : ℕ) : ℚ) = ((⌊p'⌋ : ℤ) : ℚ) := by
    exact_mod_cast Int.toNat_of_nonneg (Int.floor_nonneg.mpr hp'0)
  have hkp : ((⌊p⌋.toNat : ℕ) : ℚ) ≤ p := by rw [htn]; exact Int.floor_le p
  have hkp1 : p < ((⌊p⌋.toNat : ℕ) : ℚ) + 1 := by
    rw [htn]
    exact_mod_cast Int.lt_floor_add_one p
  have hkp' : ((⌊p'⌋.toNat : ℕ) : ℚ) ≤ p' := by rw [htn']; exact Int.floor_le p'
  have hkk : ⌊p⌋.toNat ≤ ⌊p'⌋.toNat := Int.toNat_le_toNat (Int.floor_le_floor hpp)
  have hk'n : ⌊p'⌋.toNat < s.length := by
    have h1 : (⌊p'⌋ : ℚ) ≤ (s.length : ℚ) - 1 := le_trans (Int.floor_le p') hp'
    have h2 : ((s.length : ℚ) - 1) = (((s.length : ℤ) - 1 : ℤ) : ℚ) := by push_cast; ring
    rw [h2] at h1
    have h3 : ⌊p'⌋ ≤ (s.length : ℤ) - 1 := by exact_mod_cast h1
    omega
  have hkn : ⌊p⌋.toNat < s.length := lt_of_le_of_lt hkk hk'n
  unfold interp
  simp only
  set k := ⌊p⌋.toNat with hkdef
  set k' := ⌊p'⌋.toNat with hk'def
  have hx01 : s.getD k 0 ≤ s.getD (k + 1) (s.getD k 0) := by
    by_cases hk1 : k + 1 < s.length
    · rw [getD_default_irrel s (k+1) (s.getD k 0) 0 hk1]
      exact getD_mono_of_sorted s hs k (k+1) (by omega) hk1
    · have hd : s.getD (k + 1) (s.getD k 0) = s.getD k 0 := by
        rw [List.getD_eq_getElem?_getD, List.getElem?_eq_none (Nat.le_of_not_lt hk1)]
        rfl
      rw [hd]
  have hx01' : s.getD k' 0 ≤ s.getD (k' + 1) (s.getD k' 0) := by
    by_cases hk1 : k' + 1 < s.length
    · rw [getD_default_irrel s (k'+1) (s.getD k' 0) 0 hk1]
      exact getD_mono_of_sorted s hs k' (k'+1) (by omega) hk1
    · have hd : s.getD (k' + 1) (s.getD k' 0) = s.getD k' 0 := by
        rw [List.getD_eq_getElem?_getD, List.getElem?_eq_none (Nat.le_of_not_lt hk1)]
        rfl
      rw [hd]
  rcases eq_or_lt_of_le hkk with heq | hlt
  · rw [← heq]
    have hfac : 0 ≤ s.getD (k+1) (s.getD k 0) - s.getD k 0 := by linarith
    have hpq : p - (k : ℚ) ≤ p' - (k : ℚ) := by linarith
    nlinarith [mul_le_mul_of_nonneg_right hpq hfac]
  · have hk1n : k + 1 < s.length := lt_of_le_of_lt hlt hk'n
    have hx1 : s.getD (k + 1) (s.getD k 0) = s.getD (k+1) 0 :=
      getD_default_irrel s (k+1) (s.getD k 0) 0 hk1n
    have hstep1 : s.getD k 0 + (p - (k : ℚ)) * (s.getD (k+1) (s.getD k 0) - s.getD k 0)
        ≤ s.getD (k+1) (s.getD k 0) := by
      have h1 : p - (k : ℚ) ≤ 1 := by linarith
      have h0 : 0 ≤ p - (k : ℚ) := by linarith
      nlinarith [hx01]
    have hstep2 : s.getD (k+1) (s.getD k 0) ≤ s.getD k' 0 := by
      rw [hx1]
      exact getD_mono_of_sorted s hs (k+1) k' hlt hk'n
    have hstep3 : s.getD k' 0
        ≤ s.getD k' 0 + (p' - (k' : ℚ)) * (s.getD (k'+1) (s.getD k' 0) - s.getD k' 0) := by
      have h0 : 0 ≤ p' - (k' : ℚ) := by linarith
      nlinarith [hx01']
    linarith

lemma quantile_mono (xs : List ℚ) (hne : xs ≠ []) (q q' : ℚ)
    (h0 : 0 ≤ q) (hqq : q ≤ q') (h1 : q' ≤ 1) :
    quantile xs q ≤ quantile xs q' := by
  have hemp : xs.isEmpty = false := by simpa [List.isEmpty_iff] using hne
  have hn : 1 ≤ xs.length := List.length_pos.mpr hne
  have hnn : (0 : ℚ) ≤ (xs.length : ℚ) - 1 := by
    have : (1 : ℚ) ≤ (xs.length : ℚ) := by exact_mod_cast hn
    linarith
  unfold quantile
  rw [hemp]
  simp only [Bool.false_eq_true, if_false]
  have hs : List.Sorted (· ≤ ·) (xs.insertionSort (· ≤ ·)) :=
    List.sorted_insertionSort _ _
  have hlen : (xs.insertionSort (· ≤ ·)).length = xs.length :=
    List.length_insertionSort _ _
  apply interp_mono _ hs
  · exact mul_nonneg h0 hnn
  · exact mul_le_mul_of_nonneg_right hqq hnn
  · rw [hlen]
    nlinarith

/-! ### Helpers on `List.set` -/

lemma getD_set_self {α : Type} (l : List α) (i : ℕ) (a d : α) (h : i < l.length) :
    (l.set i a).getD i d = a := by
  induction l generalizing i with
  | nil => cases h
  | cons x t ih =>
    cases i with
    | zero => rfl
    | succ n =>
      simp only [List.set_cons_succ, List.getD_cons_succ]
      exact ih n (by simpa using h)

lemma set_getD_self {α : Type} (l : List α) (i : ℕ) (d : α) (h : i < l.length) :
    l.set i (l.getD i d) = l := by
  induction l generalizing i with
  | nil => cases h
  | cons x t ih =>
    cases i with
    | zero => rfl
    | succ n =>
      simp only [List.set_cons_succ, List.getD_cons_succ]
      rw [ih n (by simpa using h)]

lemma getD_map_of_lt {α β : Type} (f : α → β) (l : List α) (i : ℕ) (d : α) (db : β)
    (h : i < l.length) : (l.map f).getD i db = f (l.getD i d) := by
  rw [List.getD_eq_getElem?_getD, List.getElem?_map, List.getElem?_eq_getElem h,
    List.getD_eq_getElem?_getD, List.getElem?_eq_getElem h]
  rfl

/-! ### C8: monotonicity under raising one amount above the 99th percentile -/

/-- The batch refuting C8 as stated, before the raise: ten rows sharing one
account (+25 each), rows 0–2 sharing beneficiary B (+30 burst), row 0 with
the round amount 4000 (+15); amounts place row 0 below the batch's 95th and
99th percentiles (6750 and 8550). -/
def dfC8old : Batch :=
  { rows := [{ amount := 4000, beneficiary := some "B", account := some "A" },
             { amount := 10, beneficiary := some "B", account := some "A" },
             { amount := 10, beneficiary := some "B", account := some "A" },
             { amount := 10, account := some "A" },
             { amount := 10, account := some "A" },
             { amount := 10, account := some "A" },
             { amount := 10, account := some "A" },
             { amount := 10, account := some "A" },
             { amount := 10, account := some "A" },
             { amount := 9000, account := some "A" }]
    hasBeneficiary := true, hasTimestamp := true, hasAccount := true }

/-- `dfC8old` with row 0's amount raised to 10001, above the raised batch's
99th percentile (9910.91). -/
def dfC8new : Batch :=
  { rows := dfC8old.rows.set 0 { dfC8old.rows.getD 0 default with amount := 10001 }
    hasBeneficiary := true, hasTimestamp := true, hasAccount := true }

/-- C8 counterexample: the two batches are identical except that row 0's
amount is raised from not-above the old batch's 99th percentile to above the
new batch's 99th percentile, yet the rule score rises only from 70 to 100 —
an increase of 30, not the claimed at-least-40.  (The +15 round-amount bonus
is lost and the clip at 100 absorbs part of the +70 amount contribution.) -/
theorem C8_counterexample :
    dfC8new.rows = dfC8old.rows.set 0 { dfC8old.rows.getD 0 default with amount := 10001 } ∧
    dfC8new.hasBeneficiary = dfC8old.hasBeneficiary ∧
    dfC8new.hasTimestamp = dfC8old.hasTimestamp ∧
    dfC8new.hasAccount = dfC8old.hasAccount ∧
    (dfC8old.rows.getD 0 default).amount ≤ quantile (amounts dfC8old) (99/100) ∧
    quantile (amounts dfC8new) (99/100) < (dfC8new.rows.getD 0 default).amount ∧
    ruleScore dfC8old 0 = 70 ∧
    ruleScore dfC8new 0 = 100 ∧
    ¬ ruleScore dfC8old 0 + 40 ≤ ruleScore dfC8new 0 := by
  have h70 : ruleScore dfC8old 0 = 70 := by
    norm_num [ruleScore, rawRuleScore, amountContrib, burstContrib, acctContrib, roundContrib,
      isRound, quantile, amounts, dfC8old, interp, List.insertionSort, List.orderedInsert,
      List.count_cons]
    simp
    norm_num [List.getD]
  have h100 : ruleScore dfC8new 0 = 100 := by
    norm_num [ruleScore, rawRuleScore, amountContrib, burstContrib, acctContrib, roundContrib,
      isRound, quantile, amounts, dfC8new, dfC8old, interp, List.insertionSort,
      List.orderedInsert, List.count_cons]
    simp
    norm_num [List.getD]
  refine ⟨rfl, rfl, rfl, rfl, ?_, ?_, h70, h100, by omega⟩
  · norm_num [quantile, amounts, dfC8old, interp, List.insertionSort, List.orderedInsert]
    simp
    norm_num [List.getD]
  · norm_num [quantile, amounts, dfC8new, dfC8old, interp, List.insertionSort,
      List.orderedInsert, List.getD]
    simp
    norm_num [List.getD]

/-- C8 amended: raising one transaction's amount from not-above the old
batch's 99th percentile to above the new batch's 99th percentile increases
that transaction's rule score by at least 40, **provided** the raise does
not forfeit the round-amount bonus (the old amount is not a multiple of
1000, or the new one also is) and the old rule score is at most 60, so the
clip at 100 cannot absorb the gain. -/
theorem C8_monotonicity_amended (dfo dfn : Batch) (i : ℕ) (a' : ℚ)
    (hi : i < dfo.rows.length)
    (hrows : dfn.rows = dfo.rows.set i { dfo.rows.getD i default with amount := a' })
    (hB : dfn.hasBeneficiary = dfo.hasBeneficiary)
    (hT : dfn.hasTimestamp = dfo.hasTimestamp)
    (hA : dfn.hasAccount = dfo.hasAccount)
    (hold : (dfo.rows.getD i default).amount ≤ quantile (amounts dfo) (99/100))
    (hnew : quantile (amounts dfn) (99/100) < a')
    (hround : isRound (dfo.rows.getD i default).amount = true → isRound a' = true)
    (hclip : ruleScore dfo i ≤ 60) :
    ruleScore dfo i + 40 ≤ ruleScore dfn i := by
  have hleno : dfn.rows.length = dfo.rows.length := by rw [hrows, List.length_set]
  have hin : i < dfn.rows.length := by omega
  have hrowi : dfn.rows.getD i default = { dfo.rows.getD i default with amount := a' } := by
    rw [hrows]
    exact getD_set_self dfo.rows i _ default hi
  have hbens : dfn.rows.map (·.beneficiary) = dfo.rows.map (·.beneficiary) := by
    rw [hrows, List.map_set]
    have h2 : (dfo.rows.map (·.beneficiary)).getD i none
        = (dfo.rows.getD i default).beneficiary :=
      getD_map_of_lt (·.beneficiary) dfo.rows i default none hi
    have h3 : (({ dfo.rows.getD i default with amount := a' } : Row)).beneficiary
        = (dfo.rows.map (·.beneficiary)).getD i none := by rw [h2]
    rw [h3, set_getD_self _ i none (by simpa using hi)]
  have haccts : dfn.rows.map (·.account) = dfo.rows.map (·.account) := by
    rw [hrows, List.map_set]
    have h2 : (dfo.rows.map (·.account)).getD i none
        = (dfo.rows.getD i default).account :=
      getD_map_of_lt (·.account) dfo.rows i default none hi
    have h3 : (({ dfo.rows.getD i default with amount := a' } : Row)).account
        = (dfo.rows.map (·.account)).getD i none := by rw [h2]
    rw [h3, set_getD_self _ i none (by simpa using hi)]
  -- the burst and account contributions of row i agree between the batches
  have hburst : burstContrib (dfn.hasBeneficiary && dfn.hasTimestamp)
        (dfn.rows.map (·.beneficiary)) ((dfn.rows.getD i default).beneficiary)
      = burstContrib (dfo.hasBeneficiary && dfo.hasTimestamp)
        (dfo.rows.map (·.beneficiary)) ((dfo.rows.getD i default).beneficiary) := by
    rw [hB, hT, hbens, hrowi]
  have hacct : acctContrib dfn.hasAccount (dfn.rows.map (·.account))
        ((dfn.rows.getD i default).account)
      = acctContrib dfo.hasAccount (dfo.rows.map (·.account))
        ((dfo.rows.getD i default).account) := by
    rw [hA, haccts, hrowi]
  -- amount contributions
  have hamon : amountContrib dfo (dfo.rows.getD i default).amount ≤ 30 := by
    unfold amountContrib
    rw [if_neg (not_lt.mpr hold)]
    split <;> norm_num
  have hnemp : amounts dfn ≠ [] := by
    have : (amounts dfn).length = dfn.rows.length := by simp [amounts]
    intro hc
    rw [hc] at this
    simp at this
    omega
  have hq95 : quantile (amounts dfn) (19/20) ≤ quantile (amounts dfn) (99/100) :=
    quantile_mono (amounts dfn) hnemp (19/20) (99/100) (by norm_num) (by norm_num) (by norm_num)
  have hamon' : amountContrib dfn a' = 70 := by
    unfold amountContrib
    rw [if_pos (lt_of_le_of_lt hq95 hnew), if_pos hnew]
    norm_num
  have hrnd : roundContrib (dfo.rows.getD i default).amount ≤ roundContrib a' := by
    unfold roundContrib
    by_cases hr : isRound (dfo.rows.getD i default).amount = true
    · rw [if_pos hr, if_pos (hround hr)]
    · rw [if_neg hr]
      split <;> norm_num
  -- assemble the raw scores
  have hrawo : rawRuleScore dfo i
      = amountContrib dfo (dfo.rows.getD i default).amount
        + burstContrib (dfo.hasBeneficiary && dfo.hasTimestamp)
            (dfo.rows.map (·.beneficiary)) ((dfo.rows.getD i default).beneficiary)
        + acctContrib dfo.hasAccount (dfo.rows.map (·.account))
            ((dfo.rows.getD i default).account)
        + roundContrib (dfo.rows.getD i default).amount := rfl
  have hrawn : rawRuleScore dfn i
      = amountContrib dfn a'
        + burstContrib (dfo.hasBeneficiary && dfo.hasTimestamp)
            (dfo.rows.map (·.beneficiary)) ((dfo.rows.getD i default).beneficiary)
        + acctContrib dfo.hasAccount (dfo.rows.map (·.account))
            ((dfo.rows.getD i default).account)
        + roundContrib a' := by
    unfold rawRuleScore
    rw [hrowi] at hburst hacct ⊢
    simp only at hburst hacct ⊢
    rw [hburst, hacct]
  have hgain : rawRuleScore dfo i + 40 ≤ rawRuleScore dfn i := by
    rw [hrawo, hrawn, hamon']
    omega
  have h0o := rawRuleScore_nonneg dfo i
  have h0n := rawRuleScore_nonneg dfn i
  unfold ruleScore at hclip ⊢
  omega

/-- Witness batch for the amended C8: like `dfC8old` but with no account
column and a non-round target amount 4001, keeping the old rule score at
30 ≤ 60 and the round-amount bonus out of play. -/
def dfC8wo : Batch :=
  { rows := [{ amount := 4001, beneficiary := some "B" },
             { amount := 10, beneficiary := some "B" },
             { amount := 10, beneficiary := some "B" },
             { amount := 10 }, { amount := 10 }, { amount := 10 }, { amount := 10 },
             { amount := 10 }, { amount := 10 }, { amount := 9000 }]
    hasBeneficiary := true, hasTimestamp := true }

/-- `dfC8wo` with row 0's amount raised to 10001. -/
def dfC8wn : Batch :=
  { rows := dfC8wo.rows.set 0 { dfC8wo.rows.getD 0 default with amount := 10001 }
    hasBeneficiary := true, hasTimestamp := true }

/-- C8 witness: on `dfC8wo`/`dfC8wn` the amended monotonicity gives the
at-least-40 rule-score gain. -/
theorem C8_witness : ruleScore dfC8wo 0 + 40 ≤ ruleScore dfC8wn 0 :=
  C8_monotonicity_amended dfC8wo dfC8wn 0 10001 (by norm_num [dfC8wo]) rfl rfl rfl rfl
    (by
      norm_num [quantile, amounts, dfC8wo, interp, List.insertionSort, List.orderedInsert]
      simp
      norm_num [List.getD])
    (by
      norm_num [quantile, amounts, dfC8wn, dfC8wo, interp, List.insertionSort,
        List.orderedInsert, List.getD]
      simp
      norm_num [List.getD])
    (fun h => absurd h (by norm_num [dfC8wo, isRound, List.getD]))
    (by
      norm_num [ruleScore, rawRuleScore, amountContrib, burstContrib, acctContrib,
        roundContrib, isRound, quantile, amounts, dfC8wo, interp, List.insertionSort,
        List.orderedInsert, List.count_cons]
      simp
      norm_num [List.getD])

/-- A scored row for the C5 witness (beneficiary B, given risk score). -/
def srowB (s : ℤ) : ScoredRow :=
  { base := { amount := 5, beneficiary := some "B" }, risk_score := s,
    risk_level := riskLevel s, fraud_indicators := [Reason.lowAnomaly] }

/-- The C5 witness batch: beneficiary B has three transactions, two of them
at `risk_score ≥ 50`. -/
def rowsW : List ScoredRow := [srowB 60, srowB 55, srowB 10]

/-- C5 witness: the absent-column call returns the empty list, and on the
scored batch beneficiary B (3 transactions, 2 high-risk) gets exactly one
alert. -/
theorem C5_witness :
    detectDuplicates false rowsW = [] ∧
    (detectDuplicates true rowsW).countP (fun a => a.beneficiaryId == "B") = 1 := by
  refine ⟨(C5_duplicate_detection false rowsW "B").1 rfl, ?_⟩
  have h := (C5_duplicate_detection true rowsW "B").2.1
  rw [h]
  norm_num [benTxns, rowsW, srowB]

/-- C10 witness: the one-row batch whose row has a missing beneficiary gets
no burst contribution, and every alert on the C5 witness batch names a
beneficiary present in some row. -/
theorem C10_witness :
    burstContrib (dfW.hasBeneficiary && dfW.hasTimestamp) (dfW.rows.map (·.beneficiary))
        ((dfW.rows.getD 0 default).beneficiary) = 0 ∧
    ∀ a ∈ detectDuplicates true rowsW, ∃ t ∈ rowsW, t.base.beneficiary = some a.beneficiaryId :=
  C10_missing_beneficiary dfW 0 rfl rowsW true

end FraudDetection
